import Mathlib

/-!
Shallow embedding of the item storage and retrieval core of the
daijoubu-tidy repository (src/services/ai.py, src/services/items.py,
src/services/search.py, src/services/declutter.py and src/models), with
proofs about its behaviour.  Machine-level pieces that live outside the
Python sources (the SQL engine's ORDER BY, pgvector's cosine-distance
operator, json.loads) are modelled explicitly and documented at their
definitions.
-/

namespace Daijoubu

/-- Python truthiness of an optional string argument: `None` and the empty
string are both falsy (`if action_taken:` / `if not settings.openai_api_key`
in the sources). -/
def pyTruthy : Option String → Bool
  | none => false
  | some s => !(s == "")

/-- Python's str.strip character class: the whitespace removed from both
ends by `.strip()`. -/
def isPySpace (c : Char) : Bool :=
  c == ' ' || c == '\t' || c == '\n' || c == '\r' || c == '\x0b' || c == '\x0c'

/-- Python str.strip(). -/
def pyStrip (s : String) : String :=
  String.mk (((s.data.dropWhile isPySpace).reverse.dropWhile isPySpace).reverse)

/-- SQLAlchemy Result.scalar_one_or_none as used throughout the services:
`none` when the query matched no row, the row when it matched exactly one,
and a raised MultipleResultsFound exception (modelled as `Except.error ()`)
when it matched more than one row. -/
def scalar_one_or_none {α : Type} : List α → Except Unit (Option α)
  | [] => Except.ok none
  | [x] => Except.ok (some x)
  | _ => Except.error ()

/-- Insertion of `x` into `l` in front of the first element `y` with
`le x y`. -/
def insertBy {α : Type} (le : α → α → Bool) (x : α) : List α → List α
  | [] => [x]
  | y :: ys => if le x y then x :: y :: ys else y :: insertBy le x ys

/-- Insertion sort; models the database's ORDER BY (which is outside the
Python sources).  With a total `le` the result is sorted by `le`, and a list
that is already sorted comes back unchanged, which is all the proofs use. -/
def sortBy {α : Type} (le : α → α → Bool) : List α → List α
  | [] => []
  | x :: xs => insertBy le x (sortBy le xs)

/-! ## The AI provider adapter (src/services/ai.py)

Each operation of AIService performs one HTTP call whose outcome is a value
of `Except String payload`: `Except.ok` is the decoded payload of a 2xx
reply and `Except.error` a raised transport/API exception carrying its
message.  An `AIOracle` fixes the credential and the outcome of the next
embedding and classification calls. -/

structure AIOracle where
  apiKey : String
  embedResult : Except String (List ℚ)
  classifyResult : Except String String

/-- AIService.generate_embedding: None when the credential is the empty
string (`if not settings.openai_api_key`), None on a raised transport/API
exception (logged and swallowed), otherwise the provider's vector. -/
def generate_embedding (apiKey : String) (transport : Except String (List ℚ))
    (_text : String) : Option (List ℚ) :=
  if apiKey == "" then none
  else
    match transport with
    | Except.error _ => none
    | Except.ok emb => some emb

/-- The closed set of category labels of AIService.classify_content. -/
def valid_categories : List String :=
  ["work", "personal", "learning", "reference", "ideas", "tasks", "finance",
   "health", "entertainment", "other"]

/-- AIService.classify_content: None when the credential is empty, None on a
raised exception; otherwise the reply is stripped and lowercased and any
label outside the closed set is coerced to "other".  The lowercasing of the
reply (`.lower()`) is applied by the provider-reply handling before the
membership test; replies are modelled as already produced by `.strip().lower()`
composition via `pyStrip` and `String.toLower`. -/
def classify_content (apiKey : String) (transport : Except String String)
    (_content : String) : Option String :=
  if apiKey == "" then none
  else
    match transport with
    | Except.error _ => none
    | Except.ok reply =>
      let category := (pyStrip reply).toLower
      if category ∈ valid_categories then some category else some "other"

/-- One item of structured decluttering advice, as decoded from the
provider's JSON reply in AIService.analyze_image_for_declutter. -/
structure AdviceItem where
  name : String
  decision : String
  reason : String
  action : String
deriving DecidableEq, Repr

/-- Result of analyze_image_for_declutter: the Python dict with an "error"
key, or the dict with "success": True and an "items" list. -/
inductive AnalyzeResult where
  | failure (message : String)
  | success (items : List AdviceItem)
deriving DecidableEq, Repr

/-- Outcome of `json.loads(content)` followed by `data.get("items", [])`:
`decodeError` models a json.JSONDecodeError, `decoded items` a successfully
decoded JSON object with its (possibly empty) items list, and `raised`
any other exception raised while decoding the reply (for example the
AttributeError when the reply decodes to a non-object). -/
inductive ParseOutcome where
  | decodeError
  | decoded (items : List AdviceItem)
  | raised (message : String)

/-- Removal of a leading markdown code fence:
`re.sub(r'^\x60\x60\x60json\s*', '', content)`. -/
def stripFenceStart (s : String) : String :=
  if s.startsWith "```json" then String.mk ((s.data.drop 7).dropWhile isPySpace)
  else s

/-- Removal of a trailing markdown code fence:
`re.sub(r'\s*\x60\x60\x60$', '', content)`. -/
def stripFenceEnd (s : String) : String :=
  if s.endsWith "```" then
    String.mk (((s.data.reverse.drop 3).dropWhile isPySpace).reverse)
  else s

def stripJsonFence (s : String) : String := stripFenceEnd (stripFenceStart s)

/-- AIService.analyze_image_for_declutter.  The HTTP call and json.loads are
outside the embedded core: `transport` is the raw reply text or the raised
exception, and `parseItems` stands for json.loads plus `data.get("items", [])`
applied to the fence-stripped reply. -/
def analyze_image_for_declutter (apiKey : String)
    (transport : Except String String)
    (parseItems : String → ParseOutcome) : AnalyzeResult :=
  if apiKey == "" then AnalyzeResult.failure "需要 OpenAI API Key 才能分析圖片"
  else
    match transport with
    | Except.error e => AnalyzeResult.failure ("分析圖片時發生錯誤：" ++ e)
    | Except.ok raw =>
      let content := stripJsonFence (pyStrip raw)
      match parseItems content with
      | ParseOutcome.raised e => AnalyzeResult.failure ("分析圖片時發生錯誤：" ++ e)
      | ParseOutcome.decoded items =>
        if items.isEmpty then AnalyzeResult.failure "無法識別照片中的物品"
        else AnalyzeResult.success items
      | ParseOutcome.decodeError =>
        AnalyzeResult.success
          [{ name := "未知物品", decision := "consider",
             reason := content.take 200, action := "請重新拍攝更清晰的照片" }]

/-! ## The entity store (src/models)

Rows of the four tables plus the two join tables.  Id generation
(UUIDMixin) and timestamps (TimestampMixin) live in src/models/base.py,
which is absent from the sources; modelled from the spec ("id: unique,
globally-generated identifier", "created_at/updated_at: server-assigned
timestamps, monotonic non-decreasing") as a per-store counter `nextId`
handing out globally unique ids and a clock `clock` handing out
non-decreasing creation stamps.  Prefix addressing uses the id's string
rendering, matching `func.cast(Item.id, String)`. -/

structure Item where
  id : Nat
  content : String
  content_type : String
  url : Option String
  url_title : Option String
  url_description : Option String
  source_channel : Option String
  source_message_id : Option String
  embedding : Option (List ℚ)
  created_at : Nat
deriving DecidableEq, Repr

structure Category where
  id : Nat
  name : String
  description : Option String
deriving DecidableEq, Repr

structure Tag where
  id : Nat
  name : String
deriving DecidableEq, Repr

/-- The relational store: rows of items, categories and tags, the two join
tables as (item_id, category_id) and (item_id, tag_id) pairs, and the id
counter and clock of the mixins.  Lists keep insertion order. -/
structure Store where
  items : List Item
  categories : List Category
  tags : List Tag
  itemCategories : List (Nat × Nat)
  itemTags : List (Nat × Nat)
  nextId : Nat
  clock : Nat
deriving DecidableEq, Repr

/-- The WHERE clause `func.cast(Item.id, String).like(idPfx || '%')`: the id
cast to its string form must start with the prefix. -/
def idMatches (idv : Nat) (pfx : String) : Bool :=
  pfx.data.isPrefixOf (toString idv).data

/-! ## The item service (src/services/items.py) -/

/-- ItemService.create_item: generates the embedding, inserts the row, then
auto-categorizes (ItemService._auto_categorize): classifies the content and,
when a label comes back, get-or-creates the Category by exact name and links
it to the item.  A MultipleResultsFound raised by the category lookup's
scalar_one_or_none propagates as `Except.error ()`. -/
def create_item (ai : AIOracle) (s : Store) (content : String)
    (content_type : String) (url : Option String) (url_title : Option String)
    (url_description : Option String) (source_channel : Option String)
    (source_message_id : Option String) : Except Unit (Store × Item) :=
  let embedding := generate_embedding ai.apiKey ai.embedResult content
  let item : Item :=
    { id := s.nextId, content := content, content_type := content_type,
      url := url, url_title := url_title, url_description := url_description,
      source_channel := source_channel, source_message_id := source_message_id,
      embedding := embedding, created_at := s.clock }
  let s1 : Store :=
    { s with
      items := s.items ++ [item],
      nextId := s.nextId + 1,
      clock := s.clock + 1 }
  match classify_content ai.apiKey ai.classifyResult content with
  | none => Except.ok (s1, item)
  | some category_name =>
    match scalar_one_or_none (s1.categories.filter (fun c => c.name == category_name)) with
    | Except.error () => Except.error ()
    | Except.ok (some cat) =>
      Except.ok ({ s1 with itemCategories := s1.itemCategories ++ [(item.id, cat.id)] }, item)
    | Except.ok none =>
      let cat : Category := { id := s1.nextId, name := category_name, description := none }
      Except.ok ({ s1 with
        categories := s1.categories ++ [cat],
        nextId := s1.nextId + 1,
        itemCategories := s1.itemCategories ++ [(item.id, cat.id)] }, item)

/-- The tag get-or-create step of ItemService.add_tags: select the Tag by
exact name and create it when absent. -/
def get_or_create_tag (s : Store) (tag_name : String) : Except Unit (Store × Tag) :=
  match scalar_one_or_none (s.tags.filter (fun t => t.name == tag_name)) with
  | Except.error () => Except.error ()
  | Except.ok (some t) => Except.ok (s, t)
  | Except.ok none =>
    let t : Tag := { id := s.nextId, name := tag_name }
    Except.ok ({ s with tags := s.tags ++ [t], nextId := s.nextId + 1 }, t)

/-- The `if tag not in item.tags: item.tags.append(tag)` step of
ItemService.add_tags. -/
def link_tag (s : Store) (itemId : Nat) (t : Tag) : Store :=
  if (itemId, t.id) ∈ s.itemTags then s
  else { s with itemTags := s.itemTags ++ [(itemId, t.id)] }

/-- The `for tag_name in tag_names` loop of ItemService.add_tags; a raised
MultipleResultsFound from the tag lookup propagates. -/
def add_tags_loop (s : Store) (itemId : Nat) : List String → Except Unit Store
  | [] => Except.ok s
  | n :: ns =>
    match get_or_create_tag s n with
    | Except.error () => Except.error ()
    | Except.ok st => add_tags_loop (link_tag st.1 itemId st.2) itemId ns

/-- ItemService.add_tags: resolves the item by id prefix via
scalar_one_or_none (`Except.error ()` models the MultipleResultsFound raised
when several ids share the prefix, `Except.ok none` the not-found result),
then get-or-creates each tag and links it unless already linked. -/
def add_tags (s : Store) (idPfx : String) (tag_names : List String) :
    Except Unit (Option (Store × Item)) :=
  match scalar_one_or_none (s.items.filter (fun it => idMatches it.id idPfx)) with
  | Except.error () => Except.error ()
  | Except.ok none => Except.ok none
  | Except.ok (some item) =>
    match add_tags_loop s item.id tag_names with
    | Except.error () => Except.error ()
    | Except.ok s' => Except.ok (some (s', item))

/-- ItemService.delete_item: resolves the item by id prefix via
scalar_one_or_none, then deletes the row; the ondelete="CASCADE" foreign
keys of ItemCategory and ItemTag (src/models/item.py) remove the item's join
rows, and nothing touches the categories and tags tables. -/
def delete_item (s : Store) (idPfx : String) : Except Unit (Store × Bool) :=
  match scalar_one_or_none (s.items.filter (fun it => idMatches it.id idPfx)) with
  | Except.error () => Except.error ()
  | Except.ok none => Except.ok (s, false)
  | Except.ok (some item) =>
    Except.ok
      ({ s with
         items := s.items.filter (fun x => !(x.id == item.id)),
         itemCategories := s.itemCategories.filter (fun l => !(l.1 == item.id)),
         itemTags := s.itemTags.filter (fun l => !(l.1 == item.id)) }, true)

/-- Modelled from the spec: ISO-8601 rendering of a server-assigned
timestamp (`created_at.isoformat()`; TimestampMixin in src/models/base.py is
absent from the sources).  Modelled as the decimal rendering of the abstract
clock value, which is injective — all the export relies on. -/
def isoformat (t : Nat) : String := toString t

/-- The `[c.name for c in item.categories]` list of an item: the names of
the categories its join rows point at, in category-table order. -/
def category_names (s : Store) (it : Item) : List String :=
  (s.categories.filter (fun c => s.itemCategories.contains (it.id, c.id))).map
    (fun c => c.name)

/-- The `[t.name for t in item.tags]` list of an item. -/
def tag_names (s : Store) (it : Item) : List String :=
  (s.tags.filter (fun t => s.itemTags.contains (it.id, t.id))).map
    (fun t => t.name)

/-- One record of the JSON export of ItemService.export_data. -/
structure JsonRecord where
  id : String
  content : String
  content_type : String
  url : Option String
  url_title : Option String
  categories : List String
  tags : List String
  created_at : String
deriving DecidableEq, Repr

/-- The byte stream handed back by ItemService.export_data, kept at the
level of the serialized records: json.dumps and csv.writer are injective
renderings of exactly these values. -/
inductive ExportData where
  | jsonOut (records : List JsonRecord)
  | csvOut (rows : List (List String))
deriving DecidableEq, Repr

def json_record (s : Store) (it : Item) : JsonRecord :=
  { id := toString it.id, content := it.content,
    content_type := it.content_type, url := it.url, url_title := it.url_title,
    categories := category_names s it, tags := tag_names s it,
    created_at := isoformat it.created_at }

def csv_header : List String :=
  ["id", "content", "content_type", "url", "categories", "tags", "created_at"]

def csv_row (s : Store) (it : Item) : List String :=
  [toString it.id, it.content, it.content_type, it.url.getD "",
   String.intercalate "," (category_names s it),
   String.intercalate "," (tag_names s it), isoformat it.created_at]

/-- ItemService.export_data: loads every item ordered by created_at
ascending, returns None for an empty store, else serializes to JSON or CSV,
and returns None for any other format value. -/
def export_data (s : Store) (format : String) : Option ExportData :=
  let items := sortBy (fun a b => decide (a.created_at ≤ b.created_at)) s.items
  if items.isEmpty then none
  else if format == "json" then
    some (ExportData.jsonOut (items.map (fun it => json_record s it)))
  else if format == "csv" then
    some (ExportData.csvOut (csv_header :: items.map (fun it => csv_row s it)))
  else none

/-! ## The search service (src/services/search.py) -/

/-- SearchService.semantic_search.  `dist e q` stands for pgvector's cosine
distance between a stored embedding `e` and the query embedding `q` (the
operator lives in the database extension, outside the sources; the spec:
"ranks items with non-null embeddings by ascending cosine distance").  The
Python `if not query_embedding` guard is also true for an empty vector, and
the similarity conversion is the source's `1 - distance if distance else 0`. -/
def semantic_search (ai : AIOracle) (dist : List ℚ → List ℚ → ℚ) (s : Store)
    (query : String) (limit : Nat) : List (Item × ℚ) :=
  match generate_embedding ai.apiKey ai.embedResult query with
  | none => []
  | some query_embedding =>
    if query_embedding.isEmpty then []
    else
      let rows := (s.items.filter (fun it => it.embedding.isSome)).map
        (fun it => (it, dist (it.embedding.getD []) query_embedding))
      let sorted := sortBy (fun a b => decide (a.2 ≤ b.2)) rows
      (sorted.take limit).map
        (fun r => (r.1, if r.2 == 0 then 0 else 1 - r.2))

/-- ASCII case folding on character codes, as applied by the store's
case-insensitive ILIKE comparison (outside the Python sources). -/
def lowerCode (n : Nat) : Nat := if 65 ≤ n ∧ n ≤ 90 then n + 32 else n

/-- A string as its list of case-folded character codes. -/
def foldCase (s : String) : List Nat := s.data.map (fun c => lowerCode c.toNat)

/-- SQL LIKE pattern matching over case-folded character codes: code 37
('%') matches any sequence, code 95 ('_') matches any single character,
anything else matches itself. -/
def likeMatch (p s : List Nat) : Bool :=
  match p with
  | [] => s.isEmpty
  | p0 :: ps =>
    if p0 = 37 then
      likeMatch ps s ||
        (match s with
         | [] => false
         | _ :: s' => likeMatch (p0 :: ps) s')
    else
      match s with
      | [] => false
      | c :: s' => (p0 = 95 || p0 == c) && likeMatch ps s'
termination_by (p.length, s.length)
decreasing_by
  all_goals simp_wf
  · apply Prod.Lex.left
    omega
  · apply Prod.Lex.right
    omega
  · apply Prod.Lex.left
    omega

/-- The `Item.content.ilike(search_pattern)` comparison: LIKE matching of
the pattern against the content, case-insensitively. -/
def ilikeB (content pat : String) : Bool :=
  likeMatch (foldCase pat) (foldCase content)

/-- The spec's notion used by keywordSearch — "case-insensitive substring
match on content": the case-folded keyword occurs contiguously inside the
case-folded content.  (Spec-side definition, compared against the ILIKE
pattern the code builds.) -/
def containsCI (keyword content : String) : Prop :=
  foldCase keyword <:+: foldCase content

instance (keyword content : String) : Decidable (containsCI keyword content) :=
  List.decidableInfix _ _

/-- SearchService.keyword_search: filters on
`content ILIKE '%' || keyword || '%'`, orders newest-first by created_at,
and truncates to `limit`. -/
def keyword_search (s : Store) (keyword : String) (limit : Nat) : List Item :=
  let search_pattern := "%" ++ keyword ++ "%"
  (sortBy (fun a b => decide (b.created_at ≤ a.created_at))
    (s.items.filter (fun it => ilikeB it.content search_pattern))).take limit

/-! ## The declutter task service (src/services/declutter.py) -/

/-- A declutter_tasks row (src/models/declutter_task.py).  created_at and
updated_at come from TimestampMixin in src/models/base.py, which is absent
from the sources; modelled from the spec ("created_at/updated_at:
server-assigned timestamps, monotonic non-decreasing").  updated_at is
stamped on every write — the service's completion-time queries
(get_recent_completed, get_completed_tasks, get_decision_stats) filter on
it as the time a task was marked done. -/
structure DTask where
  id : Nat
  item_name : String
  image_url : Option String
  analysis : String
  decision : String
  status : String
  action_taken : Option String
  source_channel : Option String
  source_message_id : Option String
  created_at : Nat
  updated_at : Nat
deriving DecidableEq, Repr

structure TaskStore where
  tasks : List DTask
  nextId : Nat
  clock : Nat
deriving DecidableEq, Repr

/-- DeclutterTaskService.get_task_by_prefix: resolves a task by id prefix
via scalar_one_or_none (so more than one match raises, modelled as
`Except.error ()`). -/
def get_task_by_prefix' (ts : TaskStore) (idPfx : String) :
    Except Unit (Option DTask) :=
  scalar_one_or_none (ts.tasks.filter (fun t => idMatches t.id idPfx))

/-- DeclutterTaskService.update_task_status: resolves the task by prefix,
sets its status, and overwrites action_taken only when the argument is
truthy (`if action_taken:`) — None and the empty string leave it unchanged.
TimestampMixin's onupdate (src/models/base.py, absent from the sources;
modelled from the spec's server-assigned timestamps) stamps updated_at with
a fresh server time when the row is written, which is what the service's
completion-time queries read back. -/
def update_task_status (ts : TaskStore) (idPfx : String) (status : String)
    (action_taken : Option String) : Except Unit (Option (TaskStore × DTask)) :=
  match get_task_by_prefix' ts idPfx with
  | Except.error () => Except.error ()
  | Except.ok none => Except.ok none
  | Except.ok (some t) =>
    let t' : DTask :=
      { t with
        status := status,
        action_taken := if pyTruthy action_taken then action_taken
                        else t.action_taken,
        updated_at := ts.clock }
    Except.ok (some
      ({ ts with
         tasks := ts.tasks.map (fun x => if x.id == t.id then t' else x),
         clock := ts.clock + 1 }, t'))

/-! ## General lemmas -/

deriving instance DecidableEq for Except

/-- With two or more matching rows, scalar_one_or_none raises
MultipleResultsFound. -/
theorem scalar_one_or_none_multi {α : Type} (l : List α) (h : 2 ≤ l.length) :
    scalar_one_or_none l = Except.error () := by
  match l with
  | [] => simp at h
  | [x] => simp at h
  | x :: y :: t => rfl

/-- A scalar_one_or_none hit pins the query result down to a singleton. -/
theorem scalar_one_or_none_ok_some {α : Type} {l : List α} {x : α}
    (h : scalar_one_or_none l = Except.ok (some x)) : l = [x] := by
  match l with
  | [] => simp [scalar_one_or_none] at h
  | [y] =>
    simp only [scalar_one_or_none, Except.ok.injEq, Option.some.injEq] at h
    rw [h]
  | y :: z :: t => simp [scalar_one_or_none] at h

/-! ## C1 -/

def c1AI : AIOracle :=
  { apiKey := "key", embedResult := Except.ok [1, 0],
    classifyResult := Except.error "unused" }

def c1Item0 : Item :=
  ⟨0, "alpha", "text", none, none, none, none, none, some [1, 0], 0⟩

def c1Item1 : Item :=
  ⟨1, "beta", "text", none, none, none, none, none, some [0, 1], 1⟩

def c1Store : Store := ⟨[c1Item0, c1Item1], [], [], [], [], 2, 2⟩

/-- Pinned cosine distances against the query embedding [1, 0]: the stored
embedding identical to the query is at distance 0, the other at 1/2. -/
def c1Dist (e _q : List ℚ) : ℚ := if e == [(1 : ℚ), 0] then 0 else 1/2

/-- C1: evaluating semantic_search at a query whose embedding coincides with
a stored embedding (cosine distance 0).  The distance-0 item is ranked
first, but the source's `1 - distance if distance else 0` pairs it with
similarity 0 — not the claimed 1 − distance = 1; the item at distance 1/2
does get 1 − 1/2. -/
theorem semantic_search_distance_zero_similarity :
    semantic_search c1AI c1Dist c1Store "query" 2 = [(c1Item0, 0), (c1Item1, 1/2)]
    ∧ c1Dist [(1 : ℚ), 0] [(1 : ℚ), 0] = 0
    ∧ (0 : ℚ) ≠ 1 - 0 := by
  refine ⟨by with_unfolding_all decide, by with_unfolding_all decide, by norm_num⟩

/-! ## C2 -/

def c2ItemA : Item := ⟨10, "a", "text", none, none, none, none, none, none, 0⟩

def c2ItemB : Item := ⟨11, "b", "text", none, none, none, none, none, none, 1⟩

def c2Store : Store := ⟨[c2ItemA, c2ItemB], [], [], [], [], 12, 2⟩

def c2TaskA : DTask :=
  ⟨10, "fan", none, "dusty", "discard", "pending", none, none, none, 0, 0⟩

def c2TaskB : DTask :=
  ⟨11, "box", none, "empty", "keep", "pending", none, none, none, 1, 1⟩

def c2Tasks : TaskStore := ⟨[c2TaskA, c2TaskB], 12, 2⟩

/-- C2 counterexample: item ids 10 and 11 both match the prefix "1", and
instead of returning one of the matching rows, addTags, deleteItem and the
task get-by-prefix all raise MultipleResultsFound. -/
theorem prefix_collision_failure :
    add_tags c2Store "1" ["t"] = Except.error ()
    ∧ delete_item c2Store "1" = Except.error ()
    ∧ get_task_by_prefix' c2Tasks "1" = Except.error () := by
  refine ⟨rfl, rfl, rfl⟩

/-- C2 amended: when more than one id shares the prefix, ID-prefix
resolution raises MultipleResultsFound rather than returning an arbitrary
first match — addTags, deleteItem and the task get-by-prefix all fail. -/
theorem prefix_collision_raises (s : Store) (ts : TaskStore) (idPfx : String)
    (tag_names : List String)
    (hi : 2 ≤ (s.items.filter (fun it => idMatches it.id idPfx)).length)
    (ht : 2 ≤ (ts.tasks.filter (fun t => idMatches t.id idPfx)).length) :
    add_tags s idPfx tag_names = Except.error ()
    ∧ delete_item s idPfx = Except.error ()
    ∧ get_task_by_prefix' ts idPfx = Except.error () := by
  refine ⟨?_, ?_, ?_⟩
  · unfold add_tags
    rw [scalar_one_or_none_multi _ hi]
  · unfold delete_item
    rw [scalar_one_or_none_multi _ hi]
  · unfold get_task_by_prefix'
    exact scalar_one_or_none_multi _ ht

/-- C2 witness for the amended theorem, at the two-item, two-task store. -/
theorem prefix_collision_raises_witness :
    add_tags c2Store "1" ["u"] = Except.error ()
    ∧ delete_item c2Store "1" = Except.error ()
    ∧ get_task_by_prefix' c2Tasks "1" = Except.error () :=
  prefix_collision_raises c2Store c2Tasks "1" ["u"] (by decide) (by decide)

/-! ## C3 -/

/-- C3: with the provider credential empty, create_item still succeeds and
returns the freshly inserted item with a null embedding, while the
categories table and the ItemCategory join table are untouched; and both
embed and classify return unavailable (None) rather than raising — with no
credential configured, and on any raised transport/API failure. -/
theorem create_item_degrades_without_credential
    (et : Except String (List ℚ)) (ct : Except String String) (s : Store)
    (content content_type : String) :
    (∃ it : Item,
      create_item ⟨"", et, ct⟩ s content content_type none none none none none =
        Except.ok
          ({ s with
             items := s.items ++ [it],
             nextId := s.nextId + 1,
             clock := s.clock + 1 }, it)
      ∧ it.embedding = none)
    ∧ (∀ (key text e : String) (t : Except String (List ℚ))
         (t' : Except String String),
        generate_embedding "" t text = none
        ∧ classify_content "" t' text = none
        ∧ generate_embedding key (Except.error e) text = none
        ∧ classify_content key (Except.error e) text = none) := by
  constructor
  · refine ⟨{ id := s.nextId, content := content, content_type := content_type,
              url := none, url_title := none, url_description := none,
              source_channel := none, source_message_id := none,
              embedding := none, created_at := s.clock }, ?_, rfl⟩
    simp [create_item, generate_embedding, classify_content]
  · intro key text e t t'
    refine ⟨rfl, rfl, ?_, ?_⟩
    · simp [generate_embedding]
    · simp [classify_content]

/-! ## C4 -/

/-- C4: deleting an item removes every ItemCategory and ItemTag join row of
that item and no other join row, and leaves the categories and tags tables
exactly as they were. -/
theorem delete_item_cascade (s : Store) (idPfx : String) (it : Item)
    (h : scalar_one_or_none (s.items.filter (fun x => idMatches x.id idPfx)) =
      Except.ok (some it)) :
    ∃ s', delete_item s idPfx = Except.ok (s', true)
      ∧ s'.categories = s.categories
      ∧ s'.tags = s.tags
      ∧ (∀ l ∈ s'.itemCategories, l.1 ≠ it.id)
      ∧ (∀ l ∈ s.itemCategories, l.1 ≠ it.id → l ∈ s'.itemCategories)
      ∧ (∀ l ∈ s'.itemCategories, l ∈ s.itemCategories)
      ∧ (∀ l ∈ s'.itemTags, l.1 ≠ it.id)
      ∧ (∀ l ∈ s.itemTags, l.1 ≠ it.id → l ∈ s'.itemTags)
      ∧ (∀ l ∈ s'.itemTags, l ∈ s.itemTags)
      ∧ (∀ x ∈ s'.items, x.id ≠ it.id) := by
  unfold delete_item
  rw [h]
  refine ⟨_, rfl, rfl, rfl, ?_, ?_, ?_, ?_, ?_, ?_, ?_⟩ <;>
    · intro l hl
      simp only [List.mem_filter, Bool.not_eq_true', beq_eq_false_iff_ne,
        ne_eq] at hl ⊢
      tauto

def c4Item : Item := ⟨3, "note", "text", none, none, none, none, none, none, 0⟩

def c4Other : Item := ⟨7, "keep", "text", none, none, none, none, none, none, 1⟩

def c4Store : Store :=
  ⟨[c4Item, c4Other], [⟨1, "work", none⟩], [⟨2, "urgent"⟩],
   [(3, 1), (7, 1)], [(3, 2), (7, 2)], 8, 2⟩

/-- C4 witness: deleting item 3 from a store where items 3 and 7 share a
category and a tag. -/
theorem delete_item_cascade_witness :
    ∃ s', delete_item c4Store "3" = Except.ok (s', true)
      ∧ s'.categories = c4Store.categories
      ∧ s'.tags = c4Store.tags
      ∧ (∀ l ∈ s'.itemCategories, l.1 ≠ c4Item.id)
      ∧ (∀ l ∈ c4Store.itemCategories, l.1 ≠ c4Item.id → l ∈ s'.itemCategories)
      ∧ (∀ l ∈ s'.itemCategories, l ∈ c4Store.itemCategories)
      ∧ (∀ l ∈ s'.itemTags, l.1 ≠ c4Item.id)
      ∧ (∀ l ∈ c4Store.itemTags, l.1 ≠ c4Item.id → l ∈ s'.itemTags)
      ∧ (∀ l ∈ s'.itemTags, l ∈ c4Store.itemTags)
      ∧ (∀ x ∈ s'.items, x.id ≠ c4Item.id) :=
  delete_item_cascade c4Store "3" c4Item (by decide)

/-! ## C10 -/

def c10bTask : DTask :=
  ⟨7, "lamp", none, "broken", "discard", "pending", some "note", none, none,
   0, 0⟩

def c10bTasks : TaskStore := ⟨[c10bTask], 8, 1⟩

/-- C10 counterexample: marking the pending task 7 done treats status and
action_taken as the claim describes, but updated_at is stamped with the
fresh server time 1 (and the completion-time queries depend on that), so
"all other task fields except status and action_taken are unchanged" is
false at this input. -/
theorem update_task_status_bumps_updated_at :
    update_task_status c10bTasks "7" "done" none =
      Except.ok (some
        (⟨[⟨7, "lamp", none, "broken", "discard", "done", some "note", none,
            none, 0, 1⟩], 8, 2⟩,
         ⟨7, "lamp", none, "broken", "discard", "done", some "note", none,
          none, 0, 1⟩))
    ∧ (1 : Nat) ≠ c10bTask.updated_at :=
  ⟨by decide, by decide⟩

/-- C10 amended: update_task_status never clears action_taken.  For a task
resolved by prefix, a None or empty-string note leaves the stored
action_taken unchanged (so reverting a done task to pending keeps its
note), only a non-empty note overwrites it, status is set and updated_at is
stamped with a fresh server time; every other field is unchanged, as is
every other task. -/
theorem update_task_status_preserves_action (ts : TaskStore)
    (idPfx status : String) (t : DTask)
    (h : get_task_by_prefix' ts idPfx = Except.ok (some t)) :
    ∀ action : Option String, ∃ ts' t',
      update_task_status ts idPfx status action = Except.ok (some (ts', t'))
      ∧ (pyTruthy action = false → t'.action_taken = t.action_taken)
      ∧ (∀ v : String, action = some v → v ≠ "" → t'.action_taken = some v)
      ∧ t'.status = status
      ∧ t'.updated_at = ts.clock
      ∧ t'.id = t.id ∧ t'.item_name = t.item_name ∧ t'.image_url = t.image_url
      ∧ t'.analysis = t.analysis ∧ t'.decision = t.decision
      ∧ t'.created_at = t.created_at
      ∧ t'.source_channel = t.source_channel
      ∧ t'.source_message_id = t.source_message_id
      ∧ (∀ x ∈ ts.tasks, x.id ≠ t.id → x ∈ ts'.tasks) := by
  intro action
  have hT : update_task_status ts idPfx status action =
      Except.ok (some
        ({ ts with
           tasks := ts.tasks.map (fun x => if x.id == t.id then
             { t with
               status := status,
               action_taken := if pyTruthy action then action
                               else t.action_taken,
               updated_at := ts.clock }
             else x),
           clock := ts.clock + 1 },
         { t with
           status := status,
           action_taken := if pyTruthy action then action
                           else t.action_taken,
           updated_at := ts.clock })) := by
    unfold update_task_status
    rw [h]
  refine ⟨_, _, hT, ?_, ?_, rfl, rfl, rfl, rfl, rfl, rfl, rfl, rfl, rfl, rfl, ?_⟩
  · intro hf
    simp [hf]
  · intro v hv hne
    subst hv
    simp only [pyTruthy]
    rw [if_pos]
    simp [hne]
  · intro x hx hne
    exact List.mem_map.2 ⟨x, hx, by simp [hne]⟩

def c10Task : DTask :=
  ⟨5, "fan", none, "dusty", "discard", "done", some "sold it", none, none,
   0, 0⟩

def c10Tasks : TaskStore := ⟨[c10Task], 6, 1⟩

/-- C10 witness: reverting the done task 5 to pending with an empty note
keeps its recorded action_taken while updated_at takes the fresh stamp. -/
theorem update_task_status_preserves_action_witness :
    ∃ ts' t',
      update_task_status c10Tasks "5" "pending" (some "") = Except.ok (some (ts', t'))
      ∧ (pyTruthy (some "") = false → t'.action_taken = c10Task.action_taken)
      ∧ (∀ v : String, some "" = some v → v ≠ "" → t'.action_taken = some v)
      ∧ t'.status = "pending"
      ∧ t'.updated_at = c10Tasks.clock
      ∧ t'.id = c10Task.id ∧ t'.item_name = c10Task.item_name
      ∧ t'.image_url = c10Task.image_url
      ∧ t'.analysis = c10Task.analysis ∧ t'.decision = c10Task.decision
      ∧ t'.created_at = c10Task.created_at
      ∧ t'.source_channel = c10Task.source_channel
      ∧ t'.source_message_id = c10Task.source_message_id
      ∧ (∀ x ∈ c10Tasks.tasks, x.id ≠ c10Task.id → x ∈ ts'.tasks) :=
  update_task_status_preserves_action c10Tasks "5" "pending" c10Task (by decide)
    (some "")

/-! ## C8 -/

/-- C8: analyze_image_for_declutter never fails merely because the reply is
unparseable: a json.JSONDecodeError yields a success result carrying a
single "consider" fallback item wrapping the (fence-stripped) raw reply
text, while a missing credential or a raised transport failure yields an
explicit error result. -/
theorem analyze_image_error_paths (apiKey : String)
    (transport : Except String String) (parseItems : String → ParseOutcome) :
    (apiKey = "" → analyze_image_for_declutter apiKey transport parseItems =
      AnalyzeResult.failure "需要 OpenAI API Key 才能分析圖片")
    ∧ (∀ e, apiKey ≠ "" → transport = Except.error e →
        analyze_image_for_declutter apiKey transport parseItems =
          AnalyzeResult.failure ("分析圖片時發生錯誤：" ++ e))
    ∧ (∀ raw, apiKey ≠ "" → transport = Except.ok raw →
        parseItems (stripJsonFence (pyStrip raw)) = ParseOutcome.decodeError →
        analyze_image_for_declutter apiKey transport parseItems =
          AnalyzeResult.success
            [{ name := "未知物品", decision := "consider",
               reason := (stripJsonFence (pyStrip raw)).take 200,
               action := "請重新拍攝更清晰的照片" }]) := by
  refine ⟨?_, ?_, ?_⟩
  · intro hk
    subst hk
    rfl
  · intro e hk ht
    subst ht
    simp [analyze_image_for_declutter, hk]
  · intro raw hk ht hp
    subst ht
    simp [analyze_image_for_declutter, hk, hp]

/-- C8 witness: an unparseable reply comes back as a "consider" fallback
success, and a missing credential as an explicit error. -/
theorem analyze_image_error_paths_witness :
    analyze_image_for_declutter "k" (Except.ok "oops")
      (fun _ => ParseOutcome.decodeError) =
      AnalyzeResult.success
        [{ name := "未知物品", decision := "consider",
           reason := (stripJsonFence (pyStrip "oops")).take 200,
           action := "請重新拍攝更清晰的照片" }]
    ∧ analyze_image_for_declutter "" (Except.ok "oops")
      (fun _ => ParseOutcome.decodeError) =
      AnalyzeResult.failure "需要 OpenAI API Key 才能分析圖片" :=
  ⟨(analyze_image_error_paths "k" (Except.ok "oops")
      (fun _ => ParseOutcome.decodeError)).2.2 "oops" (by decide) rfl rfl,
   (analyze_image_error_paths "" (Except.ok "oops")
      (fun _ => ParseOutcome.decodeError)).1 rfl⟩

/-! ## C7 -/

theorem insertBy_length {α : Type} (le : α → α → Bool) (x : α) (l : List α) :
    (insertBy le x l).length = l.length + 1 := by
  induction l with
  | nil => rfl
  | cons y ys ih =>
    unfold insertBy
    by_cases h : le x y
    · simp [h]
    · simp [h, ih]

theorem sortBy_length {α : Type} (le : α → α → Bool) (l : List α) :
    (sortBy le l).length = l.length := by
  induction l with
  | nil => rfl
  | cons x xs ih => simp [sortBy, insertBy_length, ih]

theorem sortBy_eq_nil_iff {α : Type} (le : α → α → Bool) (l : List α) :
    sortBy le l = [] ↔ l = [] := by
  constructor
  · intro h
    have hl := sortBy_length le l
    rw [h] at hl
    exact List.length_eq_zero.mp hl.symm
  · intro h
    subst h
    rfl

/-- A list that is already sorted comes back from the sort unchanged; this
is what ties the ORDER BY created_at of export_data to insertion order for
a store whose timestamps are non-decreasing. -/
theorem sortBy_of_chain {α : Type} (le : α → α → Bool) (l : List α)
    (h : List.Chain' (fun a b => le a b = true) l) : sortBy le l = l := by
  induction l with
  | nil => rfl
  | cons x xs ih =>
    have hx := ih h.tail
    unfold sortBy
    rw [hx]
    cases xs with
    | nil => rfl
    | cons y ys =>
      unfold insertBy
      rw [if_pos (List.chain'_cons.mp h).1]

/-- C7: export_data returns None exactly when the store has no items or the
format is neither json nor csv; for a non-empty store whose created_at
stamps are non-decreasing in insertion order (as the server assigns them),
both supported formats serialize every item — with its category and tag
names and its rendered timestamp — in insertion order. -/
theorem export_data_spec (s : Store) (format : String) :
    (export_data s format = none ↔
      s.items = [] ∨ (format ≠ "json" ∧ format ≠ "csv"))
    ∧ (List.Chain' (fun a b => a.created_at ≤ b.created_at) s.items →
        s.items ≠ [] →
        export_data s "json" =
          some (ExportData.jsonOut (s.items.map (fun it => json_record s it)))
        ∧ export_data s "csv" =
          some (ExportData.csvOut
            (csv_header :: s.items.map (fun it => csv_row s it)))) := by
  have hnil : ∀ fmt : String, (sortBy (fun a b : Item =>
      decide (a.created_at ≤ b.created_at)) s.items).isEmpty = true ↔ s.items = [] := by
    intro fmt
    rw [List.isEmpty_iff]
    exact sortBy_eq_nil_iff _ _
  constructor
  · unfold export_data
    by_cases h0 : s.items = []
    · rw [if_pos ((hnil format).mpr h0)]
      simp [h0]
    · rw [if_neg (fun hh => h0 ((hnil format).mp hh))]
      by_cases hj : format = "json"
      · subst hj
        simp [h0]
      · by_cases hcsv : format = "csv"
        · subst hcsv
          simp [h0]
        · simp [hj, hcsv, h0]
  · intro hchain hne
    have hsorted : sortBy (fun a b : Item =>
        decide (a.created_at ≤ b.created_at)) s.items = s.items :=
      sortBy_of_chain _ _ (hchain.imp (fun a b hab => by simp only [decide_eq_true_eq]; exact hab))
    constructor <;>
    · unfold export_data
      rw [hsorted]
      rw [if_neg (by simpa [List.isEmpty_iff] using hne)]
      simp

def c7Item : Item := ⟨0, "hello", "text", none, none, none, none, none, none, 0⟩

def c7Store : Store := ⟨[c7Item], [⟨1, "work", none⟩], [], [(0, 1)], [], 2, 1⟩

/-- C7 witness: the one-item store exports under both formats in insertion
order. -/
theorem export_data_spec_witness :
    export_data c7Store "json" =
      some (ExportData.jsonOut (c7Store.items.map (fun it => json_record c7Store it)))
    ∧ export_data c7Store "csv" =
      some (ExportData.csvOut
        (csv_header :: c7Store.items.map (fun it => csv_row c7Store it))) :=
  (export_data_spec c7Store "json").2 (by simp [c7Store, c7Item]) (by simp [c7Store])

/-! ## C5 -/

/-- The row create_item inserts, before auto-categorization. -/
def new_item (ai : AIOracle) (s : Store) (content content_type : String) : Item :=
  { id := s.nextId, content := content, content_type := content_type,
    url := none, url_title := none, url_description := none,
    source_channel := none, source_message_id := none,
    embedding := generate_embedding ai.apiKey ai.embedResult content,
    created_at := s.clock }

/-- When the content classifies to `c` and exactly one Category named `c`
exists, create_item links the new item to it and creates nothing. -/
theorem create_item_found (ai : AIOracle) (s : Store) (content ctype c : String)
    (cat0 : Category)
    (hcl : classify_content ai.apiKey ai.classifyResult content = some c)
    (hfil : s.categories.filter (fun cat => cat.name == c) = [cat0]) :
    create_item ai s content ctype none none none none none =
      Except.ok
        ({ s with
           items := s.items ++ [new_item ai s content ctype],
           itemCategories := s.itemCategories ++ [(s.nextId, cat0.id)],
           nextId := s.nextId + 1,
           clock := s.clock + 1 }, new_item ai s content ctype) := by
  simp only [create_item, hcl, hfil, scalar_one_or_none, new_item]

/-- When the content classifies to `c` and no Category named `c` exists,
create_item creates the Category (with the next fresh id) and links the new
item to it. -/
theorem create_item_created (ai : AIOracle) (s : Store) (content ctype c : String)
    (hcl : classify_content ai.apiKey ai.classifyResult content = some c)
    (hfil : s.categories.filter (fun cat => cat.name == c) = []) :
    create_item ai s content ctype none none none none none =
      Except.ok
        ({ s with
           items := s.items ++ [new_item ai s content ctype],
           categories := s.categories ++ [⟨s.nextId + 1, c, none⟩],
           itemCategories := s.itemCategories ++ [(s.nextId, s.nextId + 1)],
           nextId := s.nextId + 2,
           clock := s.clock + 1 }, new_item ai s content ctype) := by
  simp only [create_item, hcl, hfil, scalar_one_or_none, new_item]

/-- C5: two createItem calls whose contents classify to the same label end
with exactly one Category row of that name, to whose id both new items are
linked by exactly two new ItemCategory rows. -/
theorem category_get_or_create (ai1 ai2 : AIOracle) (s : Store)
    (c content1 content2 ctype : String)
    (h1 : classify_content ai1.apiKey ai1.classifyResult content1 = some c)
    (h2 : classify_content ai2.apiKey ai2.classifyResult content2 = some c)
    (hc : (s.categories.filter (fun cat => cat.name == c)).length ≤ 1) :
    ∃ s1 i1 s2 i2 catId,
      create_item ai1 s content1 ctype none none none none none =
        Except.ok (s1, i1)
      ∧ create_item ai2 s1 content2 ctype none none none none none =
        Except.ok (s2, i2)
      ∧ (s2.categories.filter (fun cat => cat.name == c)).map (fun cat => cat.id) =
        [catId]
      ∧ s2.itemCategories = s.itemCategories ++ [(i1.id, catId), (i2.id, catId)]
      ∧ i1.id ≠ i2.id := by
  rcases hfil : s.categories.filter (fun cat => cat.name == c) with _ | ⟨cat0, rest⟩
  · -- no category named c yet: the first call creates it, the second reuses it
    have e1 := create_item_created ai1 s content1 ctype c h1 hfil
    have hfil2 : (s.categories ++
        [(⟨s.nextId + 1, c, none⟩ : Category)]).filter (fun cat => cat.name == c) =
        [⟨s.nextId + 1, c, none⟩] := by
      simp [List.filter_append, hfil]
    have e2 := create_item_found ai2
      ({ s with
         items := s.items ++ [new_item ai1 s content1 ctype],
         categories := s.categories ++ [⟨s.nextId + 1, c, none⟩],
         itemCategories := s.itemCategories ++ [(s.nextId, s.nextId + 1)],
         nextId := s.nextId + 2,
         clock := s.clock + 1 }) content2 ctype c ⟨s.nextId + 1, c, none⟩ h2 hfil2
    refine ⟨_, _, _, _, s.nextId + 1, e1, e2, ?_, ?_, ?_⟩
    · simp [List.filter_append, hfil]
    · simp [new_item]
    · simp [new_item]
  · -- exactly one category named c exists (hc rules out more): both calls link it
    have hrest : rest = [] := by
      rw [hfil] at hc
      simp only [List.length_cons] at hc
      exact List.length_eq_zero.mp (by omega)
    subst hrest
    have e1 := create_item_found ai1 s content1 ctype c cat0 h1 hfil
    have hfil2 : s.categories.filter (fun cat => cat.name == c) = [cat0] := hfil
    have e2 := create_item_found ai2
      ({ s with
         items := s.items ++ [new_item ai1 s content1 ctype],
         itemCategories := s.itemCategories ++ [(s.nextId, cat0.id)],
         nextId := s.nextId + 1,
         clock := s.clock + 1 }) content2 ctype c cat0 h2 hfil2
    refine ⟨_, _, _, _, cat0.id, e1, e2, ?_, ?_, ?_⟩
    · simp [hfil]
    · simp [new_item]
    · simp [new_item]

def c5Store : Store := ⟨[], [], [], [], [], 0, 0⟩

def c5AI : AIOracle :=
  { apiKey := "k", embedResult := Except.ok [1],
    classifyResult := Except.ok "work" }

/-- C5 witness: on the empty store, two items both classified "work" yield
one "work" Category and two links. -/
theorem category_get_or_create_witness :
    ∃ s1 i1 s2 i2 catId,
      create_item c5AI c5Store "a" "text" none none none none none =
        Except.ok (s1, i1)
      ∧ create_item c5AI s1 "b" "text" none none none none none =
        Except.ok (s2, i2)
      ∧ (s2.categories.filter (fun cat => cat.name == "work")).map
          (fun cat => cat.id) = [catId]
      ∧ s2.itemCategories = c5Store.itemCategories ++ [(i1.id, catId), (i2.id, catId)]
      ∧ i1.id ≠ i2.id :=
  category_get_or_create c5AI c5AI c5Store "work" "a" "b" "text"
    (by with_unfolding_all decide) (by with_unfolding_all decide) (by decide)

/-! ## C6 -/

/-- The store invariants on the tags side that the schema maintains: tag
names unique (UNIQUE constraint), tag ids unique and below the id counter
(globally-generated ids), and no duplicate (item_id, tag_id) join rows
(composite primary key of item_tags). -/
def WFtags (s : Store) : Prop :=
  s.tags.Pairwise (fun a b => a.name ≠ b.name ∧ a.id ≠ b.id)
  ∧ (∀ t ∈ s.tags, t.id < s.nextId)
  ∧ s.itemTags.Nodup

/-- Under unique tag names, a name lookup returns at most one row. -/
theorem filter_name_len_le_one (l : List Tag) (n : String)
    (hp : l.Pairwise (fun a b => a.name ≠ b.name ∧ a.id ≠ b.id)) :
    (l.filter (fun x => x.name == n)).length ≤ 1 := by
  induction l with
  | nil => simp
  | cons a t ih =>
    have hp' := List.pairwise_cons.mp hp
    by_cases ha : a.name = n
    · rw [List.filter_cons_of_pos (by simp [ha])]
      have ht : t.filter (fun x => x.name == n) = [] := by
        rw [List.filter_eq_nil_iff]
        intro b hb
        simp only [beq_iff_eq]
        intro hbn
        exact (hp'.1 b hb).1 (ha.trans hbn.symm)
      simp [ht]
    · rw [List.filter_cons_of_neg (by simp [ha])]
      exact ih hp'.2

/-- Under unique tag names, the tag named `n` is alone in its name-filter. -/
theorem filter_name_singleton (l : List Tag) (τ : Tag) (n : String)
    (hp : l.Pairwise (fun a b => a.name ≠ b.name ∧ a.id ≠ b.id))
    (hmem : τ ∈ l) (hname : τ.name = n) :
    l.filter (fun x => x.name == n) = [τ] := by
  induction l with
  | nil => cases hmem
  | cons a t ih =>
    have hp' := List.pairwise_cons.mp hp
    rcases List.mem_cons.mp hmem with rfl | hmt
    · rw [List.filter_cons_of_pos (by simp [hname])]
      have ht : t.filter (fun x => x.name == n) = [] := by
        rw [List.filter_eq_nil_iff]
        intro b hb
        simp only [beq_iff_eq]
        intro hbn
        exact (hp'.1 b hb).1 (hname.trans hbn.symm)
      rw [ht]
    · have ha : ¬ (a.name = n) := by
        intro han
        exact (hp'.1 τ hmt).1 (han.trans hname.symm)
      rw [List.filter_cons_of_neg (by simp [ha])]
      exact ih hp'.2 hmt

/-- In a duplicate-free list, a member is alone in its equality-filter. -/
theorem filter_eq_self_singleton {α : Type} [DecidableEq α] (l : List α)
    (a : α) (hn : l.Nodup) (hm : a ∈ l) :
    l.filter (fun x => decide (x = a)) = [a] := by
  induction l with
  | nil => cases hm
  | cons b t ih =>
    have hnc := List.nodup_cons.mp hn
    rcases List.mem_cons.mp hm with heq | hmt
    · rw [List.filter_cons_of_pos (by simp [heq])]
      have ht : t.filter (fun x => decide (x = a)) = [] := by
        rw [List.filter_eq_nil_iff]
        intro x hx
        simp only [decide_eq_true_eq]
        intro hxa
        rw [hxa, heq] at hx
        exact hnc.1 hx
      rw [ht, heq]
    · have hba : ¬ (b = a) := by
        intro hba
        rw [hba] at hnc
        exact hnc.1 hmt
      rw [List.filter_cons_of_neg (by simp [hba])]
      exact ih hnc.2 hmt

/-- Under the tag invariants, get_or_create_tag never raises; it returns a
tag with the requested name, extends the tags table at most by that tag,
touches nothing else, and preserves the invariants. -/
theorem get_or_create_tag_spec (s : Store) (n : String) (hwf : WFtags s) :
    ∃ sa τ, get_or_create_tag s n = Except.ok (sa, τ)
      ∧ WFtags sa ∧ τ ∈ sa.tags ∧ τ.name = n
      ∧ sa.itemTags = s.itemTags ∧ sa.items = s.items
      ∧ (∀ x ∈ s.tags, x ∈ sa.tags) := by
  have hlen := filter_name_len_le_one s.tags n hwf.1
  rcases hfil : s.tags.filter (fun t => t.name == n) with _ | ⟨t0, rest⟩
  · refine ⟨{ s with
        tags := s.tags ++ [⟨s.nextId, n⟩],
        nextId := s.nextId + 1 }, ⟨s.nextId, n⟩,
      ?_, ⟨?_, ?_, hwf.2.2⟩, ?_, rfl, rfl, rfl, ?_⟩
    · simp only [get_or_create_tag, hfil, scalar_one_or_none]
    · refine List.pairwise_append.mpr ⟨hwf.1, by simp, ?_⟩
      intro a ha b hb
      rw [List.mem_singleton.mp hb]
      refine ⟨?_, Nat.ne_of_lt (hwf.2.1 a ha)⟩
      have := List.filter_eq_nil_iff.mp hfil a ha
      simpa using this
    · intro t ht
      rcases List.mem_append.mp ht with hold | hnew
      · exact Nat.lt_succ_of_lt (hwf.2.1 t hold)
      · rw [List.mem_singleton.mp hnew]
        exact Nat.lt_succ_self _
    · exact List.mem_append_right _ (List.mem_singleton.mpr rfl)
    · intro x hx
      exact List.mem_append_left _ hx
  · have hrest : rest = [] := by
      rw [hfil] at hlen
      simp only [List.length_cons] at hlen
      exact List.length_eq_zero.mp (by omega)
    subst hrest
    have ht0 : t0 ∈ s.tags.filter (fun t => t.name == n) := by
      rw [hfil]
      exact List.mem_singleton.mpr rfl
    refine ⟨s, t0, ?_, hwf, List.mem_of_mem_filter ht0, ?_, rfl, rfl,
      fun x hx => hx⟩
    · simp only [get_or_create_tag, hfil, scalar_one_or_none]
    · simpa using List.of_mem_filter ht0

/-- link_tag preserves the invariants, records the link, and touches only
the join table. -/
theorem link_tag_spec (s : Store) (i : Nat) (τ : Tag) (hwf : WFtags s) :
    WFtags (link_tag s i τ)
    ∧ (link_tag s i τ).tags = s.tags
    ∧ (link_tag s i τ).items = s.items
    ∧ (i, τ.id) ∈ (link_tag s i τ).itemTags
    ∧ (∀ p ∈ s.itemTags, p ∈ (link_tag s i τ).itemTags) := by
  unfold link_tag
  by_cases hmem : (i, τ.id) ∈ s.itemTags
  · rw [if_pos hmem]
    exact ⟨hwf, rfl, rfl, hmem, fun p hp => hp⟩
  · rw [if_neg hmem]
    refine ⟨⟨hwf.1, hwf.2.1, ?_⟩, rfl, rfl, ?_, ?_⟩
    · refine List.Nodup.append hwf.2.2 (List.nodup_singleton _) ?_
      intro p hp hq
      rw [List.mem_singleton.mp hq] at hp
      exact hmem hp
    · exact List.mem_append_right _ (List.mem_singleton.mpr rfl)
    · intro p hp
      exact List.mem_append_left _ hp

/-- Under the tag invariants the add_tags loop never raises, preserves the
invariants, only extends the tags and join tables, and links the resolved
item to a tag of each requested name. -/
theorem add_tags_loop_spec (names : List String) (s : Store) (i : Nat)
    (hwf : WFtags s) :
    ∃ s', add_tags_loop s i names = Except.ok s'
      ∧ WFtags s' ∧ s'.items = s.items
      ∧ (∀ p ∈ s.itemTags, p ∈ s'.itemTags)
      ∧ (∀ x ∈ s.tags, x ∈ s'.tags)
      ∧ (∀ n ∈ names, ∃ τ, τ ∈ s'.tags ∧ τ.name = n ∧ (i, τ.id) ∈ s'.itemTags) := by
  induction names generalizing s with
  | nil =>
    exact ⟨s, rfl, hwf, rfl, fun p hp => hp, fun x hx => hx, by simp⟩
  | cons n ns ih =>
    obtain ⟨sa, τ, hg, hwfa, hτmem, hτname, hIT, hitems, htags⟩ :=
      get_or_create_tag_spec s n hwf
    obtain ⟨hwfL, hLtags, hLitems, hLlink, hLmono⟩ := link_tag_spec sa i τ hwfa
    obtain ⟨s', hloop, hwf', hitems', hmonoIT, hmonoTags, hnames⟩ :=
      ih (link_tag sa i τ) hwfL
    refine ⟨s', ?_, hwf', ?_, ?_, ?_, ?_⟩
    · simp only [add_tags_loop, hg]
      exact hloop
    · rw [hitems', hLitems, hitems]
    · intro p hp
      exact hmonoIT _ (hLmono _ (hIT ▸ hp))
    · intro x hx
      exact hmonoTags _ (hLtags ▸ htags x hx)
    · intro m hm
      rcases List.mem_cons.mp hm with rfl | hmns
      · exact ⟨τ, hmonoTags _ (hLtags ▸ hτmem), hτname, hmonoIT _ hLlink⟩
      · exact hnames m hmns

/-- C6: addTags is idempotent per tag name.  After a first addTags call
containing `tname`, a second call containing `tname` succeeds (re-adding is
a no-op, not an error), there is exactly one tag row named `tname`, and the
item carries exactly one (item_id, tag_id) join row for it. -/
theorem add_tags_idempotent (s : Store) (idPfx : String)
    (names1 names2 : List String) (tname : String) (it1 : Item) (s1 : Store)
    (hwf : WFtags s)
    (h1 : tname ∈ names1) (h2 : tname ∈ names2)
    (hc1 : add_tags s idPfx names1 = Except.ok (some (s1, it1))) :
    ∃ s2 τ, add_tags s1 idPfx names2 = Except.ok (some (s2, it1))
      ∧ τ.name = tname
      ∧ s2.tags.filter (fun x => x.name == tname) = [τ]
      ∧ s2.itemTags.filter (fun p => decide (p = (it1.id, τ.id))) =
        [(it1.id, τ.id)] := by
  rcases hres : scalar_one_or_none
      (s.items.filter (fun it => idMatches it.id idPfx)) with u | o
  · simp only [add_tags, hres] at hc1
    cases hc1
  rcases o with _ | item
  · simp only [add_tags, hres] at hc1
    cases hc1
  simp only [add_tags, hres] at hc1
  rcases hloop1 : add_tags_loop s item.id names1 with u | s1'
  · simp only [hloop1] at hc1
    cases hc1
  simp only [hloop1, Except.ok.injEq, Option.some.injEq, Prod.mk.injEq] at hc1
  obtain ⟨rfl, rfl⟩ := hc1
  obtain ⟨s'', heq, hwf1, hitems1, hmono1, hmonoT1, hnames1⟩ :=
    add_tags_loop_spec names1 s item.id hwf
  rw [hloop1] at heq
  injection heq with heq'
  subst heq'
  have hres2 : scalar_one_or_none
      (s1'.items.filter (fun it => idMatches it.id idPfx)) =
      Except.ok (some item) := by
    rw [hitems1]
    exact hres
  obtain ⟨s2, heq2, hwf2, hitems2, hmono2, hmonoT2, hnames2⟩ :=
    add_tags_loop_spec names2 s1' item.id hwf1
  obtain ⟨τ, hτmem, hτname, hτlink⟩ := hnames2 tname h2
  refine ⟨s2, τ, ?_, hτname, ?_, ?_⟩
  · simp only [add_tags, hres2, heq2]
  · exact filter_name_singleton s2.tags τ tname hwf2.1 hτmem hτname
  · exact filter_eq_self_singleton s2.itemTags (item.id, τ.id) hwf2.2.2 hτlink

def c6Item : Item := ⟨0, "c", "text", none, none, none, none, none, none, 0⟩

def c6Store : Store := ⟨[c6Item], [], [], [], [], 1, 1⟩

/-- C6 witness: adding tag "x" to item 0 twice leaves one tag row named "x"
and one join row. -/
theorem add_tags_idempotent_witness :
    ∃ s2 τ, add_tags (⟨[c6Item], [], [⟨1, "x"⟩], [], [(0, 1)], 2, 1⟩ : Store)
        "0" ["x"] = Except.ok (some (s2, c6Item))
      ∧ τ.name = "x"
      ∧ s2.tags.filter (fun x => x.name == "x") = [τ]
      ∧ s2.itemTags.filter (fun p => decide (p = (c6Item.id, τ.id))) =
        [(c6Item.id, τ.id)] :=
  add_tags_idempotent c6Store "0" ["x"] ["x"] "x" c6Item
    (⟨[c6Item], [], [⟨1, "x"⟩], [], [(0, 1)], 2, 1⟩ : Store)
    ⟨List.Pairwise.nil, by simp [c6Store], List.Pairwise.nil⟩
    (by decide) (by decide) (by decide)

/-! ## C9 -/

/-- Keywords free of the LIKE wildcard characters '%' and '_'. -/
def noWild (kw : String) : Prop := ∀ ch ∈ kw.data, ch ≠ '%' ∧ ch ≠ '_'

instance (kw : String) : Decidable (noWild kw) := by
  unfold noWild
  infer_instance

theorem char_toNat_inj {a b : Char} (h : a.toNat = b.toNat) : a = b := by
  rw [← Char.ofNat_toNat a, h, Char.ofNat_toNat]

theorem lowerCode_ne_37 {ch : Char} (h : ch ≠ '%') : lowerCode ch.toNat ≠ 37 := by
  unfold lowerCode
  by_cases hcond : 65 ≤ ch.toNat ∧ ch.toNat ≤ 90
  · rw [if_pos hcond]
    omega
  · rw [if_neg hcond]
    intro h37
    exact h (char_toNat_inj (h37.trans (by decide)))

theorem lowerCode_ne_95 {ch : Char} (h : ch ≠ '_') : lowerCode ch.toNat ≠ 95 := by
  unfold lowerCode
  by_cases hcond : 65 ≤ ch.toNat ∧ ch.toNat ≤ 90
  · rw [if_pos hcond]
    omega
  · rw [if_neg hcond]
    intro h95
    exact h (char_toNat_inj (h95.trans (by decide)))

theorem likeMatch_nil (s : List Nat) : likeMatch [] s = s.isEmpty := by
  conv_lhs => rw [likeMatch.eq_def]

theorem likeMatch_star_nil (p : List Nat) :
    likeMatch (37 :: p) [] = likeMatch p [] := by
  conv_lhs => rw [likeMatch.eq_def]
  simp

theorem likeMatch_star_cons (p : List Nat) (c : Nat) (s' : List Nat) :
    likeMatch (37 :: p) (c :: s') =
      (likeMatch p (c :: s') || likeMatch (37 :: p) s') := by
  conv_lhs => rw [likeMatch.eq_def]
  simp

theorem likeMatch_lit_nil (p0 : Nat) (p : List Nat) (h : p0 ≠ 37) :
    likeMatch (p0 :: p) [] = false := by
  conv_lhs => rw [likeMatch.eq_def]
  simp [h]

theorem likeMatch_lit_cons (p0 : Nat) (p : List Nat) (c : Nat) (s' : List Nat)
    (h : p0 ≠ 37) :
    likeMatch (p0 :: p) (c :: s') =
      ((decide (p0 = 95) || p0 == c) && likeMatch p s') := by
  conv_lhs => rw [likeMatch.eq_def]
  simp [h]

theorem likeMatch_star_any (s : List Nat) : likeMatch [37] s = true := by
  induction s with
  | nil => rw [likeMatch_star_nil, likeMatch_nil]; rfl
  | cons c s' ih => rw [likeMatch_star_cons, ih]; simp

/-- A leading '%' consumes an arbitrary prefix of the string. -/
theorem likeMatch_star_iff (p : List Nat) (s : List Nat) :
    likeMatch (37 :: p) s = true ↔ ∃ a b, s = a ++ b ∧ likeMatch p b = true := by
  induction s with
  | nil =>
    rw [likeMatch_star_nil]
    constructor
    · intro h
      exact ⟨[], [], rfl, h⟩
    · rintro ⟨a, b, hab, hb⟩
      obtain ⟨rfl, rfl⟩ := List.append_eq_nil.mp hab.symm
      exact hb
  | cons c s' ih =>
    rw [likeMatch_star_cons, Bool.or_eq_true]
    constructor
    · intro h
      rcases h with h1 | h2
      · exact ⟨[], c :: s', rfl, h1⟩
      · obtain ⟨a, b, hab, hb⟩ := ih.mp h2
        exact ⟨c :: a, b, by rw [hab, List.cons_append], hb⟩
    · rintro ⟨a, b, hab, hb⟩
      cases a with
      | nil =>
        simp only [List.nil_append] at hab
        subst hab
        exact Or.inl hb
      | cons a0 a' =>
        rw [List.cons_append] at hab
        injection hab with h1 h2
        subst h1
        exact Or.inr (ih.mpr ⟨a', b, h2, hb⟩)

/-- A wildcard-free pattern followed by '%' matches exactly the strings it
prefixes. -/
theorem likeMatch_plain_star (kw : List Nat)
    (hw : ∀ m ∈ kw, m ≠ 37 ∧ m ≠ 95) (s : List Nat) :
    likeMatch (kw ++ [37]) s = true ↔ kw <+: s := by
  induction kw generalizing s with
  | nil =>
    simp only [List.nil_append]
    constructor
    · intro _
      exact List.nil_prefix
    · intro _
      exact likeMatch_star_any s
  | cons k ks ih =>
    have hk := hw k (List.mem_cons_self k ks)
    cases s with
    | nil =>
      rw [List.cons_append, likeMatch_lit_nil _ _ hk.1]
      simp
    | cons c s' =>
      rw [List.cons_append, likeMatch_lit_cons _ _ _ _ hk.1,
        List.cons_prefix_cons, Bool.and_eq_true, Bool.or_eq_true]
      constructor
      · intro h
        have hkc : k = c := by
          rcases h.1 with h95 | heq
          · exact absurd (by simpa using h95) hk.2
          · simpa using heq
        exact ⟨hkc,
          (ih (fun m hm => hw m (List.mem_cons_of_mem _ hm)) s').mp h.2⟩
      · rintro ⟨rfl, hpre⟩
        exact ⟨Or.inr (by simp),
          (ih (fun m hm => hw m (List.mem_cons_of_mem _ hm)) s').mpr hpre⟩

/-- For a wildcard-free keyword, the ILIKE pattern the code builds tests
exactly case-insensitive substring containment. -/
theorem ilike_pct_iff (content kw : String) (hw : noWild kw) :
    ilikeB content ("%" ++ kw ++ "%") = true ↔ containsCI kw content := by
  have h37 : lowerCode (Char.toNat '%') = 37 := by decide
  have h37b : lowerCode 37 = 37 := by decide
  have hpat : foldCase ("%" ++ kw ++ "%") = 37 :: (foldCase kw ++ [37]) := by
    simp [foldCase, String.data_append, h37, h37b]
  have hwcodes : ∀ m ∈ foldCase kw, m ≠ 37 ∧ m ≠ 95 := by
    intro m hm
    obtain ⟨ch, hch, rfl⟩ := List.mem_map.mp hm
    exact ⟨lowerCode_ne_37 (hw ch hch).1, lowerCode_ne_95 (hw ch hch).2⟩
  unfold ilikeB containsCI
  rw [hpat, likeMatch_star_iff]
  constructor
  · rintro ⟨a, b, hab, hb⟩
    obtain ⟨t, ht⟩ := (likeMatch_plain_star _ hwcodes _).mp hb
    exact ⟨a, t, by rw [hab, ← ht, List.append_assoc]⟩
  · rintro ⟨a, t, ht⟩
    refine ⟨a, foldCase kw ++ t, ?_, ?_⟩
    · rw [← ht, List.append_assoc]
    · exact (likeMatch_plain_star _ hwcodes _).mpr ⟨t, rfl⟩

def c9Item : Item := ⟨0, "abc", "text", none, none, none, none, none, none, 0⟩

def c9Store : Store := ⟨[c9Item], [], [], [], [], 1, 1⟩

/-- C9 counterexample: with keyword "a_c" the unescaped ILIKE underscore
acts as a single-character wildcard, so keyword_search returns the item
with content "abc" although "a_c" is not a substring of "abc" under any
case folding. -/
theorem keyword_search_wildcard :
    keyword_search c9Store "a_c" 10 = [c9Item]
    ∧ ¬ containsCI "a_c" "abc" := by
  have hmatch : ilikeB "abc" ("%" ++ "a_c" ++ "%") = true := by
    unfold ilikeB
    rw [show foldCase ("%" ++ "a_c" ++ "%") = [37, 97, 95, 99, 37] from rfl]
    rw [show foldCase "abc" = [97, 98, 99] from rfl]
    refine (likeMatch_star_iff _ _).mpr ⟨[], [97, 98, 99], rfl, ?_⟩
    rw [likeMatch_lit_cons 97 [95, 99, 37] 97 [98, 99] (by decide)]
    rw [likeMatch_lit_cons 95 [99, 37] 98 [99] (by decide)]
    rw [likeMatch_lit_cons 99 [37] 99 [] (by decide)]
    rw [likeMatch_star_nil, likeMatch_nil]
    decide
  constructor
  · have hfil : c9Store.items.filter
        (fun it => ilikeB it.content ("%" ++ "a_c" ++ "%")) = [c9Item] := by
      show List.filter (fun it => ilikeB it.content ("%" ++ "a_c" ++ "%"))
        [c9Item] = [c9Item]
      simp only [List.filter_cons, List.filter_nil]
      rw [show c9Item.content = "abc" from rfl, hmatch]
      simp
    simp only [keyword_search]
    rw [hfil]
    rfl
  · decide

/-- C9 amended: keyword_search filters with an unescaped LIKE pattern, so
'%' and '_' inside the keyword act as wildcards; for every keyword free of
those two characters it returns exactly the items whose content contains
the keyword as a case-insensitive substring, newest-first, top-limit. -/
theorem keyword_search_substring (s : Store) (kw : String) (limit : Nat)
    (hw : noWild kw) :
    keyword_search s kw limit =
      (sortBy (fun a b => decide (b.created_at ≤ a.created_at))
        (s.items.filter (fun it => decide (containsCI kw it.content)))).take
        limit := by
  have hfe : s.items.filter (fun it => ilikeB it.content ("%" ++ kw ++ "%")) =
      s.items.filter (fun it => decide (containsCI kw it.content)) := by
    apply List.filter_congr
    intro it _
    have hiff := ilike_pct_iff it.content kw hw
    by_cases hc : containsCI kw it.content
    · rw [hiff.mpr hc, decide_eq_true hc]
    · rw [Bool.eq_false_iff.mpr (fun ht => hc (hiff.mp ht)),
        decide_eq_false hc]
  simp only [keyword_search]
  rw [hfe]

def c9bItem : Item := ⟨0, "xAbCy", "text", none, none, none, none, none, none, 0⟩

def c9bStore : Store := ⟨[c9bItem], [], [], [], [], 1, 1⟩

/-- C9 witness for the amended theorem at the keyword "abc". -/
theorem keyword_search_substring_witness :
    keyword_search c9bStore "abc" 10 =
      (sortBy (fun a b => decide (b.created_at ≤ a.created_at))
        (c9bStore.items.filter
          (fun it => decide (containsCI "abc" it.content)))).take 10 :=
  keyword_search_substring c9bStore "abc" 10 (by decide)

end Daijoubu
